import Mathlib

/-!
Verification of the SearchSage conversational assistant (src/app.py).

The development shallowly embeds the per-turn script of app.py: the
session history, the credential gate, the query reformulator with its
Python string post-processing, the tool registry construction, and the
call-site error handling around the agent run.  External effects (the
reformulation LLM completion and the agent run) are passed in as oracle
functions returning `Except String String`, and every externally visible
action of a turn is recorded in an event trace.
-/

namespace SearchSage

/-- Role of one chat turn, as stored in st.session_state chat history. -/
inductive Role where
  | user
  | assistant
deriving DecidableEq, Repr

/-- One chat message: a dict with keys role and content in app.py. -/
structure Turn where
  role : Role
  content : String
deriving DecidableEq, Repr

/-- A tool descriptor: the name and description handed to the agent. -/
structure ToolDescr where
  name : String
  description : String
deriving DecidableEq, Repr

/-- Python truthiness of st.secrets.get(...): None and the empty string
are falsy, any other string is truthy (app.py lines 20, 22, 65, 67). -/
def truthy : Option String → Bool
  | none => false
  | some s => !s.isEmpty

/-- The ArXiv tool (ArxivQueryRun over ArxivAPIWrapper, app.py lines
26-27).  Modelled from the spec: the descriptor itself lives in the
langchain library; the spec names the tool `arxiv`. -/
def arxiv : ToolDescr :=
  { name := "arxiv"
    description := "ArXiv lookup, top_k_results 1, doc_content_chars_max 200" }

/-- The Wikipedia tool (WikipediaQueryRun over WikipediaAPIWrapper,
app.py lines 29-30).  Modelled from the spec: the descriptor itself
lives in the langchain library; the spec names the tool `wikipedia`. -/
def wiki : ToolDescr :=
  { name := "wikipedia"
    description := "Wikipedia lookup, top_k_results 1, doc_content_chars_max 200" }

/-- The web-search Tool built in app.py lines 35-39. -/
def mkSearch : ToolDescr :=
  { name := "search"
    description := "Use this to search Google for current information and news. Always use lowercase \x27search\x27" }

/-- app.py lines 32-39: `search` is None unless the SerpAPI key is
truthy, in which case it is the Tool named "search". -/
def searchTool (serpapiKey : Option String) : Option ToolDescr :=
  if truthy serpapiKey then some mkSearch else none

/-- app.py lines 104-107: tools = []; if search is not None:
tools.append(search); tools.extend([arxiv, wiki]). -/
def buildTools (search : Option ToolDescr) : List ToolDescr :=
  (match search with
   | some s => [s]
   | none => []) ++ [arxiv, wiki]

/-- app.py lines 82-85: one serialized line per prior message. -/
def historyLine (m : Turn) : String :=
  match m.role with
  | .user => "User: " ++ m.content
  | .assistant => "Assistant: " ++ m.content

/-- app.py lines 78-86: serialize all history entries except the latest
(chat_history list slice dropping the last element), or the fixed
placeholder when that list is empty. -/
def historyBlock (chatHistory : List Turn) : String :=
  let historyMessages := chatHistory.dropLast.map historyLine
  if historyMessages.isEmpty then "No prior conversation."
  else String.intercalate "\n" historyMessages

/-- app.py lines 72-76: the fixed system instruction template. -/
def reformulateSystemTemplate : String :=
  "Given the conversation history and the latest user question, " ++
  "rewrite the latest question so that it is a self-contained standalone question. " ++
  "If it\x27s already standalone, just output it unchanged. Keep it concise."

/-- app.py line 90: the user message of the reformulation prompt. -/
def reformulateUserPrompt (chatHistory : List Turn) (userQuery : String) : String :=
  "Conversation history:\n" ++ historyBlock chatHistory ++
  "\n\nLatest question:\n" ++ userQuery ++ "\n\nStandalone version:"

/-- Python-style strip: remove the longest prefix and suffix of
characters satisfying p (str.strip with a character set). -/
def pyStripWith (p : Char → Bool) (s : String) : String :=
  ⟨((s.data.dropWhile p).reverse.dropWhile p).reverse⟩

/-- Python str.strip() whitespace set. -/
def pyIsSpace (c : Char) : Bool :=
  c == ' ' || c == '\t' || c == '\n' || c == '\x0d' || c == '\x0b' || c == '\x0c'

/-- Python s.strip(): trim surrounding whitespace. -/
def pyStrip (s : String) : String := pyStripWith pyIsSpace s

/-- Python s.strip with the double-quote character: removes every
leading and every trailing double quote. -/
def pyStripQuotes (s : String) : String := pyStripWith (fun c => c == '"') s

/-- app.py line 97: standalone_question.strip().strip of double quote. -/
def postprocess (s : String) : String := pyStripQuotes (pyStrip s)

/-- app.py lines 95-99: run the reformulation chain; on success apply
the post-processing, on any exception fall back to the raw query. -/
def standaloneQuestion (llm : String → Except String String)
    (chatHistory : List Turn) (userQuery : String) : String :=
  match llm (reformulateUserPrompt chatHistory userQuery) with
  | .ok s => postprocess s
  | .error _ => userQuery

/-- app.py lines 120-123: run the agent; any exception e is converted
to the string "Error during agent run: " followed by the message. -/
def turnResponse (agent : List ToolDescr → String → Except String String)
    (tools : List ToolDescr) (question : String) : String :=
  match agent tools question with
  | .ok r => r
  | .error m => "Error during agent run: " ++ m

/-- Fixed error text of app.py line 66. -/
def groqMissingMsg : String :=
  "❗ Groq API Key is missing. Please set GROQ_API_KEY in Streamlit secrets."

/-- Fixed error text of app.py line 68. -/
def serpMissingMsg : String :=
  "❗ SerpAPI Key is missing. Please set SERPAPI_KEY in Streamlit secrets."

/-- Externally visible action of one turn, in the order it happens. -/
inductive Event where
  | renderMsg (role : Role) (content : String)
  | llmReformulateCall (systemPrompt userPrompt : String)
  | agentRunCall (tools : List ToolDescr) (question : String)
deriving DecidableEq, Repr

/-- One turn of the session loop, app.py lines 59-126: append the user
message, render it, gate on the two credentials, otherwise reformulate,
build the tool list, run the agent, convert an agent exception to the
error string, append and render the assistant message.  Returns the
event trace of the turn together with the chat history after it. -/
def processTurn (groqKey serpKey : Option String)
    (llm : String → Except String String)
    (agent : List ToolDescr → String → Except String String)
    (hist : List Turn) (userQuery : String) : List Event × List Turn :=
  let hist1 := hist ++ [⟨.user, userQuery⟩]
  if truthy groqKey = false then
    ([.renderMsg .user userQuery, .renderMsg .assistant groqMissingMsg], hist1)
  else if truthy serpKey = false then
    ([.renderMsg .user userQuery, .renderMsg .assistant serpMissingMsg], hist1)
  else
    let userPrompt := reformulateUserPrompt hist1 userQuery
    let question := standaloneQuestion llm hist1 userQuery
    let tools := buildTools (searchTool serpKey)
    let response := turnResponse agent tools question
    ([.renderMsg .user userQuery,
      .llmReformulateCall reformulateSystemTemplate userPrompt,
      .agentRunCall tools question,
      .renderMsg .assistant response],
     hist1 ++ [⟨.assistant, response⟩])

/-- The inputs one turn consumes: the two credentials, the oracles for
the two external LLM interactions, and the user query. -/
structure TurnInput where
  groqKey : Option String
  serpKey : Option String
  llm : String → Except String String
  agent : List ToolDescr → String → Except String String
  query : String

/-- A whole session: fold the turn over a list of turn inputs. -/
def runSession (inputs : List TurnInput) (hist : List Turn) : List Turn :=
  match inputs with
  | [] => hist
  | i :: rest =>
      runSession rest (processTurn i.groqKey i.serpKey i.llm i.agent hist i.query).2

/-- The pair of messages appended by one fully credentialed turn:
the user query followed by the assistant response. -/
def turnPair (p : String × String) : List Turn :=
  [⟨Role.user, p.1⟩, ⟨Role.assistant, p.2⟩]

/-- Modelled from the spec: the post-processing as the spec sentence
for claim C7 words it, namely trim surrounding whitespace and strip at
most ONE layer of surrounding quote characters if present.  Stated for
comparison against `postprocess`, which embeds the code. -/
def specPostprocessOneLayer (s : String) : String :=
  let t := pyStrip s
  if 2 ≤ t.data.length ∧ t.data.head? = some '"' ∧ t.data.getLast? = some '"' then
    ⟨(t.data.drop 1).dropLast⟩
  else t

/-- One emitted step of the reason-act loop. -/
inductive AgentStep where
  | toolCall (name input observation : String)
  | unparsable (raw : String)
  | finalAnswer (answer : String)
deriving DecidableEq, Repr

/-- Modelled from the spec: the reason-act loop of the external agent
executor (spec section 4.4), which is not part of this repository.  At
each step the agent either requests a tool, emits a final answer, or
emits unparsable output; when the parse-error flag is off an unparsable
step raises (aborting the run), when it is on the step is fed back as
corrective context and the loop continues. -/
def runAgentLoop (handleParsingErrors : Bool) : List AgentStep → Except String String
  | [] => Except.error "Agent stopped due to iteration limit or time limit."
  | AgentStep.finalAnswer a :: _ => Except.ok a
  | AgentStep.toolCall _ _ _ :: rest => runAgentLoop handleParsingErrors rest
  | AgentStep.unparsable raw :: rest =>
      if handleParsingErrors then runAgentLoop handleParsingErrors rest
      else Except.error ("Could not parse LLM output: " ++ raw)

/-- Modelled from the spec: the external initialize_agent entry point
forwards extra keyword arguments to the executor, whose recognized
parse-error flag is named handle_parsing_errors and defaults to false;
an unrecognized keyword argument is ignored. -/
def executorHandleParsingErrors (kwargs : List (String × Bool)) : Bool :=
  match kwargs.lookup "handle_parsing_errors" with
  | some b => b
  | none => false

/-- app.py lines 109-115: the boolean keyword arguments the app passes
to initialize_agent beyond tools, llm and the agent type.  Note the
first keyword is spelled handling_parsing_errors in the source. -/
def appAgentKwargs : List (String × Bool) :=
  [("handling_parsing_errors", true), ("verbose", true)]

/-! ## Helper lemmas -/

theorem pyStripWith_data (p : Char → Bool) (s : String) :
    (pyStripWith p s).data = ((s.data.dropWhile p).reverse.dropWhile p).reverse := rfl

theorem head_dropWhile_not {α : Type} (p : α → Bool) (l : List α) :
    ((l.dropWhile p).head?.all fun c => !p c) = true := by
  induction l with
  | nil => rfl
  | cons a t ih =>
      rw [List.dropWhile_cons]
      split
      · exact ih
      · rename_i h
        simp only [List.head?_cons, Option.all_some, Bool.not_eq_true']
        exact eq_false_of_ne_true h

/-- Characterization of the Python-style strip: the original character
list is the result surrounded by runs of stripped characters, and the
result neither starts nor ends with a character of the stripped set. -/
theorem pyStripWith_spec (p : Char → Bool) (s : String) :
    ∃ a b : List Char,
      a.all p = true ∧ b.all p = true ∧
      s.data = a ++ (pyStripWith p s).data ++ b ∧
      ((pyStripWith p s).data.head?.all fun c => !p c) = true ∧
      ((pyStripWith p s).data.getLast?.all fun c => !p c) = true := by
  have h1 : s.data.takeWhile p ++ s.data.dropWhile p = s.data :=
    List.takeWhile_append_dropWhile p s.data
  have h2 : (s.data.dropWhile p).reverse.takeWhile p ++
      (s.data.dropWhile p).reverse.dropWhile p = (s.data.dropWhile p).reverse :=
    List.takeWhile_append_dropWhile p (s.data.dropWhile p).reverse
  refine ⟨s.data.takeWhile p, ((s.data.dropWhile p).reverse.takeWhile p).reverse,
    ?_, ?_, ?_, ?_, ?_⟩
  · simp only [List.all_eq_true]
    exact fun c hc => List.mem_takeWhile_imp hc
  · simp only [List.all_eq_true, List.mem_reverse]
    exact fun c hc => List.mem_takeWhile_imp hc
  · have h3 : ((s.data.dropWhile p).reverse.dropWhile p).reverse ++
        ((s.data.dropWhile p).reverse.takeWhile p).reverse = s.data.dropWhile p := by
      rw [← List.reverse_append, h2, List.reverse_reverse]
    rw [pyStripWith_data, List.append_assoc, h3, h1]
  · rw [pyStripWith_data, List.head?_reverse]
    have hkey : (s.data.dropWhile p).head? =
        (((s.data.dropWhile p).reverse.dropWhile p).getLast?).or
          (((s.data.dropWhile p).reverse.takeWhile p).getLast?) := by
      conv_lhs => rw [← List.getLast?_reverse (s.data.dropWhile p), ← h2]
      rw [List.getLast?_append]
    have hh := head_dropWhile_not p s.data
    cases hcase : ((s.data.dropWhile p).reverse.dropWhile p).getLast? with
    | none => rfl
    | some v =>
        rw [hcase] at hkey
        have hkey2 : (s.data.dropWhile p).head? = some v := hkey
        rw [hkey2] at hh
        exact hh
  · rw [pyStripWith_data, List.getLast?_reverse]
    exact head_dropWhile_not p (s.data.dropWhile p).reverse

/-! ## Claims -/

/-- C7 counterexample: when the completion call returns the string
consisting of Q surrounded by two layers of double quotes, the code
(`.strip().strip` with the quote character) removes BOTH layers and
yields Q, whereas stripping at most one layer of surrounding quotes
would yield Q surrounded by one layer; the two results differ. -/
theorem C7_counterexample :
    standaloneQuestion (fun _ => Except.ok "\"\"Q\"\"") [] "q" = "Q" ∧
    specPostprocessOneLayer "\"\"Q\"\"" = "\"Q\"" ∧
    ("Q" : String) ≠ "\"Q\"" :=
  ⟨rfl, by decide, by decide⟩

/-- C7 (amended): for every string s returned by the reformulation
completion call, the output equals s with surrounding whitespace
trimmed and then ALL surrounding double-quote characters removed (every
leading and every trailing quote, not just one layer): the trimmed
string is the output surrounded by runs of double quotes, and the
output itself neither starts nor ends with a double quote, its inner
content otherwise unchanged. -/
theorem C7_postprocess_strips_all_quotes (s : String) :
    ∃ a b : List Char,
      (a.all fun c => c == '"') = true ∧ (b.all fun c => c == '"') = true ∧
      (pyStrip s).data = a ++ (postprocess s).data ++ b ∧
      ((postprocess s).data.head?.all fun c => !(c == '"')) = true ∧
      ((postprocess s).data.getLast?.all fun c => !(c == '"')) = true :=
  pyStripWith_spec (fun c => c == '"') (pyStrip s)

/-- C10: the ordered tool list handed to agent construction is exactly
search, arxiv, wikipedia when the search tool exists and arxiv,
wikipedia otherwise: the web-search tool, when present, is first, and
the arxiv tool immediately precedes the wikipedia tool; the registered
names are search, arxiv and wikipedia. -/
theorem C10_tool_order :
    buildTools none = [arxiv, wiki] ∧
    (∀ t, buildTools (some t) = [t, arxiv, wiki]) ∧
    mkSearch.name = "search" ∧ arxiv.name = "arxiv" ∧ wiki.name = "wikipedia" :=
  ⟨rfl, fun _ => rfl, rfl, rfl, rfl⟩

/-- C8 (code bug): the source passes the keyword
handling_parsing_errors to initialize_agent, but the executor's flag is
named handle_parsing_errors, so the flag keeps its default false and a
step with unparsable output aborts the run instead of being fed back;
had the correctly spelled flag been set, the same run would tolerate
the parse error and reach the final answer. -/
theorem C8_parse_error_bug :
    executorHandleParsingErrors appAgentKwargs = false ∧
    runAgentLoop (executorHandleParsingErrors appAgentKwargs)
        [AgentStep.unparsable "thought", AgentStep.finalAnswer "done"] =
      Except.error ("Could not parse LLM output: thought") ∧
    runAgentLoop true [AgentStep.unparsable "thought", AgentStep.finalAnswer "done"] =
      Except.ok "done" :=
  ⟨rfl, rfl, rfl⟩

/-- C3: if the reformulation completion call raises, the Query
Reformulator returns the raw user question completely unchanged. -/
theorem C3_reformulator_fallback (llm : String → Except String String)
    (hist : List Turn) (q m : String)
    (herr : llm (reformulateUserPrompt hist q) = Except.error m) :
    standaloneQuestion llm hist q = q := by
  simp [standaloneQuestion, herr]

/-- C3 witness: a completion oracle that always raises makes the
reformulator return the question unchanged. -/
theorem C3_reformulator_fallback_witness :
    standaloneQuestion (fun _ => Except.error "boom") [] "What?" = "What?" :=
  C3_reformulator_fallback (fun _ => Except.error "boom") [] "What?" "boom" rfl

/-- C2: the tool registry built for a turn contains exactly arxiv and
wikipedia when the search credential is absent and exactly search,
arxiv, wikipedia when it is present, the web-search tool being
registered under the lowercase name search; and every tool list an
agent run of a turn ever receives is exactly this registry. -/
theorem C2_tool_registry (sk : Option String) :
    (truthy sk = false →
      (buildTools (searchTool sk)).map ToolDescr.name = ["arxiv", "wikipedia"]) ∧
    (truthy sk = true →
      (buildTools (searchTool sk)).map ToolDescr.name = ["search", "arxiv", "wikipedia"]) ∧
    mkSearch.name = "search" ∧
    ∀ gk llm agent hist q ts question,
      Event.agentRunCall ts question ∈ (processTurn gk sk llm agent hist q).1 →
      ts = buildTools (searchTool sk) := by
  refine ⟨?_, ?_, rfl, ?_⟩
  · intro h
    simp [buildTools, searchTool, h, arxiv, wiki]
  · intro h
    simp [buildTools, searchTool, h, arxiv, wiki, mkSearch]
  · intro gk llm agent hist q ts question hmem
    simp only [processTurn] at hmem
    split at hmem
    · simp at hmem
    · split at hmem
      · simp at hmem
      · simp at hmem
        exact hmem.1

/-- C2 witness: with the search credential present the registry names
are search, arxiv, wikipedia; with it absent they are arxiv,
wikipedia. -/
theorem C2_tool_registry_witness :
    (buildTools (searchTool (some "k"))).map ToolDescr.name =
      ["search", "arxiv", "wikipedia"] ∧
    (buildTools (searchTool none)).map ToolDescr.name = ["arxiv", "wikipedia"] :=
  ⟨(C2_tool_registry (some "k")).2.1 rfl, (C2_tool_registry none).1 rfl⟩

/-- C4: when the LLM credential is missing for a turn, the turn
short-circuits: the whole trace is the user render followed by the
fixed Groq-missing error render, so no reformulation call and no agent
run happen, only the user turn is appended, and the session continues
with the following turns. -/
theorem C4_groq_gate (gk sk : Option String)
    (llm : String → Except String String)
    (agent : List ToolDescr → String → Except String String)
    (hist : List Turn) (q : String) (h : truthy gk = false) :
    processTurn gk sk llm agent hist q =
      ([Event.renderMsg Role.user q, Event.renderMsg Role.assistant groqMissingMsg],
       hist ++ [⟨Role.user, q⟩]) ∧
    (∀ sp up, Event.llmReformulateCall sp up ∉ (processTurn gk sk llm agent hist q).1) ∧
    (∀ ts question, Event.agentRunCall ts question ∉ (processTurn gk sk llm agent hist q).1) ∧
    ∀ rest, runSession (⟨gk, sk, llm, agent, q⟩ :: rest) hist =
      runSession rest (hist ++ [⟨Role.user, q⟩]) := by
  refine ⟨by simp [processTurn, h], ?_, ?_, ?_⟩
  · intro sp up
    simp [processTurn, h]
  · intro ts question
    simp [processTurn, h]
  · intro rest
    simp [runSession, processTurn, h]

/-- C4 witness: a concrete turn with the Groq key absent renders the
fixed error, records no external call, and appends only the user
turn. -/
theorem C4_groq_gate_witness :
    processTurn none (some "s") (fun _ => Except.ok "Q") (fun _ _ => Except.ok "A")
        [] "hi" =
      ([Event.renderMsg Role.user "hi", Event.renderMsg Role.assistant groqMissingMsg],
       [⟨Role.user, "hi"⟩]) :=
  (C4_groq_gate none (some "s") (fun _ => Except.ok "Q") (fun _ _ => Except.ok "A")
    [] "hi" rfl).1

/-- C6: the serialized transcript of the reformulation prompt is the
fixed placeholder sentence when the prior history (everything except
the newest turn) is empty, and otherwise the newline-join of one line
per prior turn in original order, each line being the content prefixed
by User or Assistant according to the role. -/
theorem C6_history_block (prior : List Turn) (latest : Turn) :
    (prior = [] → historyBlock (prior ++ [latest]) = "No prior conversation.") ∧
    (prior ≠ [] → historyBlock (prior ++ [latest]) =
      String.intercalate "\n" (prior.map historyLine)) ∧
    (∀ c, historyLine ⟨Role.user, c⟩ = "User: " ++ c) ∧
    (∀ c, historyLine ⟨Role.assistant, c⟩ = "Assistant: " ++ c) := by
  refine ⟨?_, ?_, fun _ => rfl, fun _ => rfl⟩
  · intro h
    subst h
    rfl
  · intro h
    simp [historyBlock, List.dropLast_concat, h]

/-- C6 witness: a history holding only the newest turn serializes to
the placeholder; a history with two prior turns serializes to the two
prefixed lines joined by a newline. -/
theorem C6_history_block_witness :
    historyBlock [⟨Role.user, "hi"⟩] = "No prior conversation." ∧
    historyBlock [⟨Role.user, "a"⟩, ⟨Role.assistant, "b"⟩, ⟨Role.user, "c"⟩] =
      "User: a\nAssistant: b" :=
  ⟨(C6_history_block [] ⟨Role.user, "hi"⟩).1 rfl,
   ((C6_history_block [⟨Role.user, "a"⟩, ⟨Role.assistant, "b"⟩]
      ⟨Role.user, "c"⟩).2.1 (by decide)).trans (by decide)⟩

/-- C9: when the LLM credential is present but the search credential is
absent, the turn is hard-blocked with the fixed SerpAPI-missing
message: neither the reformulator nor the agent runs and only the user
turn is appended; moreover in every execution whatsoever, any tool list
an agent run receives has names search, arxiv, wikipedia, so the
degraded registry of arxiv and wikipedia alone is never reached. -/
theorem C9_serp_block (gk sk : Option String)
    (llm : String → Except String String)
    (agent : List ToolDescr → String → Except String String)
    (hist : List Turn) (q : String)
    (h1 : truthy gk = true) (h2 : truthy sk = false) :
    processTurn gk sk llm agent hist q =
      ([Event.renderMsg Role.user q, Event.renderMsg Role.assistant serpMissingMsg],
       hist ++ [⟨Role.user, q⟩]) ∧
    (∀ sp up, Event.llmReformulateCall sp up ∉ (processTurn gk sk llm agent hist q).1) ∧
    (∀ ts question, Event.agentRunCall ts question ∉ (processTurn gk sk llm agent hist q).1) ∧
    ∀ gk2 sk2 llm2 agent2 hist2 q2 ts question,
      Event.agentRunCall ts question ∈ (processTurn gk2 sk2 llm2 agent2 hist2 q2).1 →
      ts.map ToolDescr.name = ["search", "arxiv", "wikipedia"] := by
  refine ⟨by simp [processTurn, h1, h2], ?_, ?_, ?_⟩
  · intro sp up
    simp [processTurn, h1, h2]
  · intro ts question
    simp [processTurn, h1, h2]
  · intro gk2 sk2 llm2 agent2 hist2 q2 ts question hmem
    simp only [processTurn] at hmem
    split at hmem
    · simp at hmem
    · split at hmem
      · simp at hmem
      · rename_i hsk
        simp at hmem
        rw [hmem.1]
        have hsk2 : truthy sk2 = true := by
          cases hv : truthy sk2
          · exact absurd hv hsk
          · rfl
        simp [buildTools, searchTool, hsk2, arxiv, wiki, mkSearch]

/-- C9 witness: a concrete turn with the Groq key present and the
SerpAPI key absent renders the fixed SerpAPI error, records no external
call, and appends only the user turn. -/
theorem C9_serp_block_witness :
    processTurn (some "g") none (fun _ => Except.ok "Q") (fun _ _ => Except.ok "A")
        [] "hi" =
      ([Event.renderMsg Role.user "hi", Event.renderMsg Role.assistant serpMissingMsg],
       [⟨Role.user, "hi"⟩]) :=
  (C9_serp_block (some "g") none (fun _ => Except.ok "Q") (fun _ _ => Except.ok "A")
    [] "hi" (by decide) rfl).1

theorem processTurn_snd_cred (gk sk : Option String)
    (llm : String → Except String String)
    (agent : List ToolDescr → String → Except String String)
    (hist : List Turn) (q : String)
    (h1 : truthy gk = true) (h2 : truthy sk = true) :
    (processTurn gk sk llm agent hist q).2 =
      hist ++ turnPair (q, turnResponse agent (buildTools (searchTool sk))
        (standaloneQuestion llm (hist ++ [⟨Role.user, q⟩]) q)) := by
  simp [processTurn, h1, h2, turnPair]

theorem length_flatMap_turnPair (l : List (String × String)) :
    (l.flatMap turnPair).length = 2 * l.length := by
  induction l with
  | nil => rfl
  | cons x t ih =>
      simp only [List.flatMap_cons, List.length_append, ih, turnPair,
        List.length_cons, List.length_nil]
      omega

theorem runSession_cred (inputs : List TurnInput) :
    ∀ hist : List Turn,
      (∀ i ∈ inputs, truthy i.groqKey = true ∧ truthy i.serpKey = true) →
      ∃ rs : List String, rs.length = inputs.length ∧
        runSession inputs hist =
          hist ++ ((inputs.map TurnInput.query).zip rs).flatMap turnPair := by
  induction inputs with
  | nil =>
      intro hist _
      exact ⟨[], rfl, by simp [runSession]⟩
  | cons i rest ih =>
      intro hist hcred
      have hi := hcred i (by simp)
      obtain ⟨rs, hlen, heq⟩ :=
        ih (processTurn i.groqKey i.serpKey i.llm i.agent hist i.query).2
          (fun j hj => hcred j (by simp [hj]))
      refine ⟨turnResponse i.agent (buildTools (searchTool i.serpKey))
        (standaloneQuestion i.llm (hist ++ [⟨Role.user, i.query⟩]) i.query) :: rs,
        by simp [hlen], ?_⟩
      have hsess : runSession (i :: rest) hist =
          runSession rest (processTurn i.groqKey i.serpKey i.llm i.agent hist i.query).2 :=
        rfl
      rw [hsess, heq,
        processTurn_snd_cred i.groqKey i.serpKey i.llm i.agent hist i.query hi.1 hi.2]
      simp [List.zip_cons_cons, List.flatMap_cons, List.append_assoc]

/-- C1 counterexample: one completed turn cycle whose credential check
fails appends only the user turn, never an assistant turn: with the
Groq key absent the history after one turn is the single user message,
of length 1 rather than 2. -/
theorem C1_counterexample :
    runSession
        [⟨none, none, fun _ => Except.ok "a", fun _ _ => Except.ok "b", "hi"⟩] [] =
      [⟨Role.user, "hi"⟩] ∧
    (runSession
        [⟨none, none, fun _ => Except.ok "a", fun _ _ => Except.ok "b", "hi"⟩] []).length ≠
      2 * 1 :=
  ⟨rfl, by decide⟩

/-- C1 (amended): for every sequence of N completed turn cycles in
which BOTH credentials are present, the history is exactly the
concatenation, in chronological order, of one user turn followed by one
assistant turn per cycle (the agent error message becoming the
assistant content on agent error), hence has length exactly 2N; a cycle
failing the credential check instead appends only its user turn, the
error message being rendered but not stored. -/
theorem C1_history_pairs (inputs : List TurnInput)
    (hcred : ∀ i ∈ inputs, truthy i.groqKey = true ∧ truthy i.serpKey = true) :
    ∃ rs : List String, rs.length = inputs.length ∧
      runSession inputs [] =
        ((inputs.map TurnInput.query).zip rs).flatMap turnPair ∧
      (runSession inputs []).length = 2 * inputs.length := by
  obtain ⟨rs, hlen, heq⟩ := runSession_cred inputs [] hcred
  refine ⟨rs, hlen, by simpa using heq, ?_⟩
  rw [heq]
  simp only [List.nil_append]
  rw [length_flatMap_turnPair, List.length_zip, List.length_map, hlen]
  simp

/-- C1 witness: one fully credentialed turn yields a history of one
user and one assistant turn, of length 2. -/
theorem C1_history_pairs_witness :
    ∃ rs : List String, rs.length = 1 ∧
      runSession
          [⟨some "g", some "s", fun _ => Except.ok "Q", fun _ _ => Except.ok "A",
            "hello"⟩] [] =
        ((["hello"]).zip rs).flatMap turnPair ∧
      (runSession
          [⟨some "g", some "s", fun _ => Except.ok "Q", fun _ _ => Except.ok "A",
            "hello"⟩] []).length = 2 * 1 :=
  C1_history_pairs
    [⟨some "g", some "s", fun _ => Except.ok "Q", fun _ _ => Except.ok "A", "hello"⟩]
    (by
      intro i hi
      simp only [List.mem_singleton] at hi
      subst hi
      exact ⟨rfl, rfl⟩)

/-- C5: when the agent run raises with message m on a fully
credentialed turn, the assistant response is exactly the string "Error
during agent run: " followed by m; it is appended to the history as the
assistant turn content and rendered, and the session continues with the
following turns from that history. -/
theorem C5_agent_error (gk sk : Option String)
    (llm : String → Except String String)
    (agent : List ToolDescr → String → Except String String)
    (hist : List Turn) (q m : String)
    (h1 : truthy gk = true) (h2 : truthy sk = true)
    (herr : agent (buildTools (searchTool sk))
      (standaloneQuestion llm (hist ++ [⟨Role.user, q⟩]) q) = Except.error m) :
    (processTurn gk sk llm agent hist q).2 =
      hist ++ [⟨Role.user, q⟩, ⟨Role.assistant, "Error during agent run: " ++ m⟩] ∧
    Event.renderMsg Role.assistant ("Error during agent run: " ++ m) ∈
      (processTurn gk sk llm agent hist q).1 ∧
    ∀ rest, runSession (⟨gk, sk, llm, agent, q⟩ :: rest) hist =
      runSession rest
        (hist ++ [⟨Role.user, q⟩, ⟨Role.assistant, "Error during agent run: " ++ m⟩]) := by
  have hresp : turnResponse agent (buildTools (searchTool sk))
      (standaloneQuestion llm (hist ++ [⟨Role.user, q⟩]) q) =
      "Error during agent run: " ++ m := by
    simp [turnResponse, herr]
  refine ⟨?_, ?_, ?_⟩
  · rw [processTurn_snd_cred gk sk llm agent hist q h1 h2, hresp]
    simp [turnPair]
  · simp [processTurn, h1, h2, hresp]
  · intro rest
    have hsess : runSession (⟨gk, sk, llm, agent, q⟩ :: rest) hist =
        runSession rest (processTurn gk sk llm agent hist q).2 := rfl
    rw [hsess, processTurn_snd_cred gk sk llm agent hist q h1 h2, hresp]
    simp [turnPair]

/-- C5 witness: a concrete fully credentialed turn whose agent raises
with message boom stores the user turn followed by the assistant turn
whose content is the error string. -/
theorem C5_agent_error_witness :
    (processTurn (some "g") (some "s") (fun _ => Except.ok "Q")
        (fun _ _ => Except.error "boom") [] "hi").2 =
      [⟨Role.user, "hi"⟩, ⟨Role.assistant, "Error during agent run: boom"⟩] :=
  (C5_agent_error (some "g") (some "s") (fun _ => Except.ok "Q")
    (fun _ _ => Except.error "boom") [] "hi" "boom" (by decide) (by decide) rfl).1

end SearchSage
